import Mathlib

/- Verification development for the NyayaAI frontend (React/JS).
   We give a shallow embedding of the response-normalization helpers
   (`flattenToString`, `normalizeData` in ChatMessage), the API client
   (`askQuestion`), the keep-alive handler, the chat input submit logic
   and the App `handleSend` state transition, and prove or refute the
   spec claims about them. -/

namespace Nyaya

/-- Model of a JavaScript runtime value as it occurs in this code base:
`null`, `undefined`, booleans, numbers (restricted to integers — the
code under verification never manipulates fractional numbers), strings,
arrays and plain objects (ordered field lists, as JS preserves insertion
order). -/
inductive JVal where
  | null
  | undefined
  | bool (b : Bool)
  | num (n : Int)
  | str (s : String)
  | arr (elems : List JVal)
  | obj (fields : List (String × JVal))

/-- The JS `typeof` operator (note `typeof null = "object"`). -/
def typeofStr : JVal → String
  | .null => "object"
  | .undefined => "undefined"
  | .bool _ => "boolean"
  | .num _ => "number"
  | .str _ => "string"
  | .arr _ => "object"
  | .obj _ => "object"

/-- `Array.isArray`. -/
def isArray : JVal → Bool
  | .arr _ => true
  | _ => false

/-- JS truthiness of a value (`if (v)`): `null`, `undefined`, `false`,
`0`, `""` are falsy; arrays and objects are always truthy. -/
def truthy : JVal → Bool
  | .null => false
  | .undefined => false
  | .bool b => b
  | .num n => n != 0
  | .str s => s != ""
  | .arr _ => true
  | .obj _ => true

/-- First field with the given key, `undefined` when absent. -/
def lookupField (k : String) : List (String × JVal) → JVal
  | [] => .undefined
  | (k2, v) :: rest => if k = k2 then v else lookupField k rest

/-- Property access `v.k` as used on data values in this code: field
lookup on a plain object, `undefined` on anything else (the call sites
only dereference after object checks or behind `?.`). -/
def objGet : JVal → String → JVal
  | .obj fs, k => lookupField k fs
  | _, _ => .undefined

/-- JS `a || b`. -/
def jsOr (a b : JVal) : JVal := if truthy a then a else b

/-- The keys of an object literal, in order (`Object.keys`). -/
def objKeys : JVal → List String
  | .obj fs => fs.map Prod.fst
  | _ => []

mutual

/-- JS `String(v)` / template-literal conversion: strings stay
themselves, arrays join their elements with `","`, plain objects print
as `"[object Object]"`. -/
def jsToString : JVal → String
  | .null => "null"
  | .undefined => "undefined"
  | .bool b => cond b "true" "false"
  | .num n => toString n
  | .str s => s
  | .arr xs => String.intercalate "," (elemStrings xs)
  | .obj _ => "[object Object]"

/-- Element conversion used by `Array.prototype.join`: `null` and
`undefined` elements become the empty string, others `String(e)`. -/
def elemStrings : List JVal → List String
  | [] => []
  | .null :: rest => "" :: elemStrings rest
  | .undefined :: rest => "" :: elemStrings rest
  | v :: rest => jsToString v :: elemStrings rest

end

/-- One `[k, v]` entry rendered as in `flattenToString`:
`` `${k}: ${Array.isArray(v) ? v.join(', ') : v}` ``. -/
def entryToString (kv : String × JVal) : String :=
  kv.1 ++ ": " ++
    (match kv.2 with
     | .arr xs => String.intercalate ", " (elemStrings xs)
     | v => jsToString v)

/-- `Object.entries(o).map(entryToString).join('. ')`. -/
def entriesToString (fs : List (String × JVal)) : String :=
  String.intercalate ". " (fs.map entryToString)

/-- `Object.entries` of a value: an object's field list; for an array,
index/element pairs (JS arrays expose their indices as keys); empty
otherwise. -/
def objEntries : JVal → List (String × JVal)
  | .obj fs => fs
  | .arr xs => xs.enum.map (fun p => (toString p.1, p.2))
  | _ => []

/-- One element of the array branch of `flattenToString`: strings kept,
anything of `typeof === 'object'` other than `null` (so objects and
nested arrays) rendered via its entries, the rest via `String(item)`. -/
def flattenItem : JVal → String
  | .str s => s
  | .obj fs => entriesToString fs
  | .arr xs => entriesToString (objEntries (.arr xs))
  | .null => jsToString .null
  | .undefined => jsToString .undefined
  | .bool b => jsToString (.bool b)
  | .num n => jsToString (.num n)

/-- The source `flattenToString`: convert any value (string, array,
object) into a readable display string; `null`/`undefined` become `""`,
strings are returned unchanged, arrays map `flattenItem` joined by
`"; "`, objects render their entries, other primitives `String(val)`. -/
def flattenToString : JVal → String
  | .null => ""
  | .undefined => ""
  | .str s => s
  | .arr xs => String.intercalate "; " (xs.map flattenItem)
  | .obj fs => entriesToString fs
  | .bool b => jsToString (.bool b)
  | .num n => jsToString (.num n)

/-- Whitespace as matched by the JS regex class `\s` and by
`String.prototype.trim` (restricted to the ASCII whitespace characters,
the only ones this code ever meets). -/
def isJsWs (c : Char) : Bool :=
  c = ' ' || c = '\t' || c = '\n' || c = '\r' || c = '\x0b' || c = '\x0c'

/-- Insignificant whitespace as accepted by `JSON.parse`: space, tab,
line feed, carriage return only. -/
def isJsonWs (c : Char) : Bool :=
  c = ' ' || c = '\t' || c = '\n' || c = '\r'

def dropJsonWs (l : List Char) : List Char := l.dropWhile isJsonWs

/-- `String.prototype.trim` on a character list. -/
def jsTrimL (l : List Char) : List Char :=
  ((l.dropWhile isJsWs).reverse.dropWhile isJsWs).reverse

/-- `String.prototype.trim`. -/
def jsTrimS (s : String) : String := (jsTrimL s.toList).asString

/-- If `l` starts with the literal `pat`, return the rest of `l`. -/
def stripLit : List Char → List Char → Option (List Char)
  | [], rest => some rest
  | _ :: _, [] => none
  | p :: ps, c :: cs => if c = p then stripLit ps cs else none

/-- `String.prototype.includes(needle)` on character lists. -/
def containsSub (needle : List Char) : List Char → Bool
  | [] => needle.isEmpty
  | c :: cs => (stripLit needle (c :: cs)).isSome || containsSub needle cs

/-- Does the list start with an opening brace (`startsWith('\x7b')`)? -/
def startsBrace : List Char → Bool
  | '{' :: _ => true
  | _ => false

/-- One global pass of `.replace(/(three backticks)json?\s*(slash)g, '')`:
every occurrence of three backticks followed by `jso`, an optional `n`
and a greedy whitespace run is deleted.  Fuel-indexed (fuel at least the
input length suffices; the scan consumes at least one character per
step). -/
def stripFencesOpenF : Nat → List Char → List Char
  | 0, l => l
  | _ + 1, [] => []
  | k + 1, c :: cs =>
    match stripLit ['`', '`', '`', 'j', 's', 'o'] (c :: cs) with
    | some rest =>
      let rest2 := match rest with
        | 'n' :: r => r
        | r => r
      stripFencesOpenF k (rest2.dropWhile isJsWs)
    | none => c :: stripFencesOpenF k cs

def stripFencesOpen (l : List Char) : List Char := stripFencesOpenF l.length l

/-- `.replace(/(three backticks)\s*$(slash)g, '')`: delete a trailing
run of three backticks followed only by whitespace up to the end of the
string (the anchor `$` forces the match to reach the end). -/
def stripFenceClose : List Char → List Char
  | [] => []
  | c :: cs =>
    match stripLit ['`', '`', '`'] (c :: cs) with
    | some rest => if rest.all isJsWs then [] else c :: stripFenceClose cs
    | none => c :: stripFenceClose cs

/-- Line 44 of ChatMessage: strip the markdown fences and trim
(`raw.replace(...).replace(...).trim()`). -/
def cleanRaw (s : String) : String :=
  (jsTrimL (stripFenceClose (stripFencesOpen s.toList))).asString

/-- Line 60 of ChatMessage: the inner (double-encoded) summary is
fence-stripped but not trimmed before re-parsing. -/
def innerClean (s : String) : String :=
  (stripFenceClose (stripFencesOpen s.toList)).asString

/-- Value of a hexadecimal digit, by code point: `0`-`9` are 48-57,
`A`-`F` are 65-70, `a`-`f` are 97-102. -/
def hexVal (c : Char) : Option Nat :=
  let n := c.toNat
  if 48 ≤ n ∧ n ≤ 57 then some (n - 48)
  else if 65 ≤ n ∧ n ≤ 70 then some (n - 55)
  else if 97 ≤ n ∧ n ≤ 102 then some (n - 87)
  else none

/-- Body of a JSON string after the opening quote: returns the decoded
characters and the rest of the input after the closing quote.  Handles
the JSON escapes and rejects raw control characters, as `JSON.parse`
does.  Fuel-indexed (input length suffices). -/
def parseStrChars : Nat → List Char → Option (List Char × List Char)
  | 0, _ => none
  | _ + 1, [] => none
  | k + 1, c :: cs =>
    if c = '"' then some ([], cs)
    else if c = '\\' then
      match cs with
      | [] => none
      | e :: cs2 =>
        let esc : Option (Char × List Char) :=
          if e = '"' then some ('"', cs2)
          else if e = '\\' then some ('\\', cs2)
          else if e = '/' then some ('/', cs2)
          else if e = 'b' then some ('\x08', cs2)
          else if e = 'f' then some ('\x0c', cs2)
          else if e = 'n' then some ('\n', cs2)
          else if e = 'r' then some ('\r', cs2)
          else if e = 't' then some ('\t', cs2)
          else if e = 'u' then
            match cs2 with
            | h1 :: h2 :: h3 :: h4 :: cs3 =>
              match hexVal h1, hexVal h2, hexVal h3, hexVal h4 with
              | some a, some b, some c2, some d =>
                some (Char.ofNat (((a * 16 + b) * 16 + c2) * 16 + d), cs3)
              | _, _, _, _ => none
            | _ => none
          else none
        match esc with
        | some (ch, rest) =>
          match parseStrChars k rest with
          | some (s, r) => some (ch :: s, r)
          | none => none
        | none => none
    else if c.toNat < 0x20 then none
    else
      match parseStrChars k cs with
      | some (s, r) => some (c :: s, r)
      | none => none

/-- Digit run of a JSON integer (`0`, or a nonzero digit followed by
digits; a leading `0` may not be followed by further digits). -/
def parseNum (l : List Char) : Option (Int × List Char) :=
  let (neg, l1) := match l with
    | '-' :: r => (true, r)
    | _ => (false, l)
  let core : Option (Nat × List Char) :=
    match l1 with
    | '0' :: r => some (0, r)
    | c :: _ =>
      if c.isDigit then
        let ds := l1.takeWhile Char.isDigit
        some (ds.foldl (fun acc d => acc * 10 + (d.toNat - '0'.toNat)) 0,
              l1.dropWhile Char.isDigit)
      else none
    | [] => none
  match core with
  | some (n, r) => some (if neg then -(n : Int) else (n : Int), r)
  | none => none

mutual

/-- Recursive-descent JSON value parser after `dropJsonWs`, modelling
`JSON.parse` on the integer-numeral fragment of JSON (this code never
receives fractional numbers; a numeral with a fraction or exponent makes
the parse fail in the model).  Fuel-indexed; `jsonParse` supplies ample
fuel. -/
def parseVal : Nat → List Char → Option (JVal × List Char)
  | 0, _ => none
  | k + 1, l =>
    match dropJsonWs l with
    | [] => none
    | 'n' :: r =>
      match stripLit ['u', 'l', 'l'] r with
      | some rest => some (.null, rest)
      | none => none
    | 't' :: r =>
      match stripLit ['r', 'u', 'e'] r with
      | some rest => some (.bool true, rest)
      | none => none
    | 'f' :: r =>
      match stripLit ['a', 'l', 's', 'e'] r with
      | some rest => some (.bool false, rest)
      | none => none
    | '"' :: r =>
      match parseStrChars (r.length + 1) r with
      | some (s, rest) => some (.str s.asString, rest)
      | none => none
    | '[' :: r => parseArrTail k r
    | '{' :: r => parseObjTail k r
    | l1 =>
      match parseNum l1 with
      | some (n, rest) => some (.num n, rest)
      | none => none

/-- After an opening bracket: an empty array or a first element followed
by `parseArrMore`. -/
def parseArrTail : Nat → List Char → Option (JVal × List Char)
  | 0, _ => none
  | k + 1, l =>
    match dropJsonWs l with
    | ']' :: r => some (.arr [], r)
    | l1 =>
      match parseVal k l1 with
      | some (v, r) =>
        match parseArrMore k r with
        | some (vs, r2) => some (.arr (v :: vs), r2)
        | none => none
      | none => none

/-- Remaining array elements: `]` closes, `,` continues. -/
def parseArrMore : Nat → List Char → Option (List JVal × List Char)
  | 0, _ => none
  | k + 1, l =>
    match dropJsonWs l with
    | ']' :: r => some ([], r)
    | ',' :: r =>
      match parseVal k r with
      | some (v, r2) =>
        match parseArrMore k r2 with
        | some (vs, r3) => some (v :: vs, r3)
        | none => none
      | none => none
    | _ => none

/-- After an opening brace: an empty object or a first member followed
by `parseObjMore`. -/
def parseObjTail : Nat → List Char → Option (JVal × List Char)
  | 0, _ => none
  | k + 1, l =>
    match dropJsonWs l with
    | '}' :: r => some (.obj [], r)
    | l1 =>
      match parseMember k l1 with
      | some (kv, r) =>
        match parseObjMore k r with
        | some (kvs, r2) => some (.obj (kv :: kvs), r2)
        | none => none
      | none => none

/-- One `"key": value` member. -/
def parseMember : Nat → List Char → Option ((String × JVal) × List Char)
  | 0, _ => none
  | k + 1, l =>
    match dropJsonWs l with
    | '"' :: r =>
      match parseStrChars (r.length + 1) r with
      | some (key, r2) =>
        match dropJsonWs r2 with
        | ':' :: r3 =>
          match parseVal k r3 with
          | some (v, r4) => some ((key.asString, v), r4)
          | none => none
        | _ => none
      | none => none
    | _ => none

/-- Remaining object members: a closing brace ends, `,` continues. -/
def parseObjMore : Nat → List Char → Option (List (String × JVal) × List Char)
  | 0, _ => none
  | k + 1, l =>
    match dropJsonWs l with
    | '}' :: r => some ([], r)
    | ',' :: r =>
      match parseMember k r with
      | some (kv, r2) =>
        match parseObjMore k r2 with
        | some (kvs, r3) => some (kv :: kvs, r3)
        | none => none
      | none => none
    | _ => none

end

/-- `JSON.parse`: parse one value, then require only whitespace to
remain; `none` models a thrown `SyntaxError`. -/
def jsonParse (s : String) : Option JVal :=
  match parseVal (2 * s.toList.length + 8) s.toList with
  | some (v, rest) => if dropJsonWs rest = [] then some v else none
  | none => none

/-- The fixed default disclaimer text of ChatMessage and App. -/
def defaultDisclaimer : String :=
  "This is informational only and does not constitute legal advice."

/-- Line 49 of ChatMessage: the object returned when `JSON.parse` of the
cleaned text throws. -/
def fallbackFields (rawStr : String) : JVal :=
  .obj [("summary", .str rawStr),
        ("relevant_law", .str ""),
        ("your_rights", .str ""),
        ("next_steps", .arr []),
        ("disclaimer", .str defaultDisclaimer)]

/-- `String.prototype.split('\n')` on a character list: the (possibly
empty) segments between newline characters, in order. -/
def splitNl : List Char → List (List Char)
  | [] => [[]]
  | '\n' :: cs => [] :: splitNl cs
  | c :: cs =>
    match splitNl cs with
    | [] => [[c]]
    | h :: t => (c :: h) :: t

/-- `s.split('\n')`. -/
def jsSplitNl (s : String) : List String := (splitNl s.toList).map List.asString

/-- Lines 69-70 of ChatMessage: the `next_steps` coercion — an array is
mapped through `flattenToString`, a string is split on newlines keeping
only lines whose trim is truthy (non-empty), anything else becomes the
empty array. -/
def normalizeNextSteps : JVal → JVal
  | .arr xs => .arr (xs.map (fun v => .str (flattenToString v)))
  | .str s => .arr (((jsSplitNl s).filter (fun t => jsTrimS t != "")).map .str)
  | _ => .arr []

/-- Line 58 of ChatMessage: the guard on a possibly double-encoded
summary — it must be a string whose trim starts with an opening brace
and which contains the literal text `"summary"` (with the quotes). -/
def isDoubleEncoded : JVal → Bool
  | .str s => startsBrace (jsTrimL s.toList) && containsSub "\"summary\"".toList s.toList
  | _ => false

/-- Lines 57-63 of ChatMessage: the double-encoded-summary recovery —
take `data.summary || ''`; when it is a string that looks like an inner
JSON object carrying a `"summary"` key, re-parse it (fence-stripped) and
adopt the inner value when its own summary is truthy. -/
def adjustData (data0 : JVal) : JVal :=
  let summary := jsOr (objGet data0 "summary") (.str "")
  if typeofStr summary = "string" && isDoubleEncoded summary then
    match jsonParse (innerClean (jsToString summary)) with
    | some inner => if truthy (objGet inner "summary") then inner else data0
    | none => data0
  else data0

/-- Lines 65-73 of ChatMessage: the normalized field object built from
the (possibly recovered) data value. -/
def buildFields (data : JVal) : JVal :=
  .obj [("summary", .str (flattenToString (objGet data "summary"))),
        ("relevant_law", .str (flattenToString (objGet data "relevant_law"))),
        ("your_rights", .str (flattenToString (objGet data "your_rights"))),
        ("next_steps", normalizeNextSteps (objGet data "next_steps")),
        ("disclaimer",
          .str (let d := flattenToString (objGet data "disclaimer")
                if d = "" then defaultDisclaimer else d)),
        ("sources", jsOr (objGet data "sources") (.arr []))]

/-- Lines 53-73 of ChatMessage, after the raw-string parsing stage:
if `data` is not a non-array object, return the degenerate record with
`String(raw)` as summary and an empty disclaimer; otherwise attempt the
double-encoded-summary recovery and build the normalized field object. -/
def normalizeFields (raw data0 : JVal) : JVal :=
  if !(typeofStr data0 = "object") || isArray data0 then
    .obj [("summary", .str (jsToString raw)),
          ("relevant_law", .str ""),
          ("your_rights", .str ""),
          ("next_steps", .arr []),
          ("disclaimer", .str "")]
  else
    buildFields (adjustData data0)

/-- The source `normalizeData` (lines 39-74 of ChatMessage): a falsy
input returns the empty object; a string input is fence-stripped,
trimmed and `JSON.parse`d — a parse failure returns the fallback record,
a parse to a truthy non-array object replaces the data, any other parse
result leaves the raw string as data; everything then flows into
`normalizeFields`. -/
def normalizeData (raw : JVal) : JVal :=
  if truthy raw then
    match raw with
    | .str rs =>
      match jsonParse (cleanRaw rs) with
      | some parsed =>
        if truthy parsed && typeofStr parsed = "object" && !isArray parsed then
          normalizeFields raw parsed
        else
          normalizeFields raw raw
      | none => fallbackFields rs
    | _ => normalizeFields raw raw
  else .obj []

/-- Outcome of `fetch(...)` as seen by `askQuestion`: the HTTP status
data plus the result of `response.json()` — `none` when the body is not
valid JSON (the `.json()` promise rejects). -/
structure FetchResponse where
  ok : Bool
  status : Nat
  body : Option JVal

/-- Ways `askQuestion` can fail: a thrown `Error` with its message, or
the propagated rejection of `response.json()` on an ok response. -/
inductive AskError where
  | thrown (msg : String)
  | bodyNotJson

/-- The source `askQuestion` (api client, lines 17-30): on a non-ok
response, read the JSON body (substituting an object with detail
`"Unknown error"` if it does not parse) and throw an `Error` whose
message is the truthy `detail` field or else `"Server error: <status>"`;
on an ok response return the parsed JSON body. -/
def askQuestion (r : FetchResponse) : Except AskError JVal :=
  if !r.ok then
    let error := match r.body with
      | some j => j
      | none => .obj [("detail", .str "Unknown error")]
    let d := objGet error "detail"
    .error (.thrown (if truthy d then jsToString d
                     else "Server error: " ++ toString r.status))
  else
    match r.body with
    | some j => .ok j
    | none => .error .bodyNotJson

/-- An HTTP reply of the keep-alive route: status code and JSON body. -/
structure KeepAliveResult where
  statusCode : Nat
  body : JVal

/-- The keep-alive `handler` (frontend/api/keep-alive.js): the argument
models the outcome of `fetch(backend/health)` followed by
`response.json()` — a parsed payload on success, or the message of the
caught exception.  Success answers 200 with
`(status: "ok", timestamp, backend)`; any failure is caught and answers
500 with `(status: "error", timestamp, message)`. -/
def keepAliveHandler (outcome : Except String JVal) (timestamp : String) :
    KeepAliveResult :=
  match outcome with
  | .ok data =>
    ⟨200, .obj [("status", .str "ok"),
                ("timestamp", .str timestamp),
                ("backend", data)]⟩
  | .error msg =>
    ⟨500, .obj [("status", .str "error"),
                ("timestamp", .str timestamp),
                ("message", .str msg)]⟩

/-- The `maxLength` attribute of the ChatInput textarea. -/
def chatInputMaxLength : Nat := 2000

/-- The ChatInput `handleSubmit` (lines 27-33): with the current textarea
content and loading flag, either do nothing (`none`) — when the trimmed
text is falsy (empty) or a request is in flight — or send the trimmed
text and clear the field (`some (sent, newFieldContent)`). -/
def handleSubmit (query : String) (isLoading : Bool) :
    Option (String × String) :=
  let trimmed := jsTrimS query
  if trimmed == "" || isLoading then none
  else some (trimmed, "")

/-- A chat message of App: a user message with its text, or an assistant
message with its response data. -/
inductive Message where
  | user (content : String)
  | assistant (data : JVal)

/-- The App component state touched by `handleSend`. -/
structure AppState where
  messages : List Message
  isLoading : Bool
  error : Option String

/-- The assistant data appended by App's catch branch: an apology
summary in the active language plus the fixed default disclaimer. -/
def errorData (language : String) : JVal :=
  .obj [("summary",
          .str (if language == "hi" then
                  "क्षमा करें, कुछ गड़बड़ हो गई। कृपया पुन: प्रयास करें।"
                else "Sorry, something went wrong. Please try again.")),
        ("disclaimer", .str defaultDisclaimer)]

/-- The App `handleSend` transition: clear the error, append the user
message, set loading; then — depending on whether `askQuestion` resolved
with a response or rejected with an error message — append the assistant
message (the response, or the apology data) and, in `finally`, clear the
loading flag. -/
def handleSend (st : AppState) (language query : String)
    (outcome : Except String JVal) : AppState :=
  let afterUser : AppState :=
    { messages := st.messages ++ [.user query], isLoading := true,
      error := none }
  match outcome with
  | .ok response =>
    { afterUser with
      messages := afterUser.messages ++ [.assistant response],
      isLoading := false }
  | .error msg =>
    { messages := afterUser.messages ++ [.assistant (errorData language)],
      isLoading := false,
      error := some (if msg == "" then
                       "Something went wrong. Please try again."
                     else msg) }

/-- The assistant data `handleSend` appends for each `askQuestion`
outcome: the resolved response, or the apology data on rejection. -/
def sentData (language : String) (outcome : Except String JVal) : JVal :=
  match outcome with
  | .ok response => response
  | .error _ => errorData language

/-- Modelled from the claim wording of C2 (a stage the source does not
have): scan inside the first `\x7b`, tracking brace depth, and return the
first balanced brace span. -/
def balancedSpanFrom : Nat → List Char → List Char → Option (List Char)
  | _, _, [] => none
  | d, acc, c :: cs =>
    if c = '}' then
      if d = 1 then some ((c :: acc).reverse)
      else balancedSpanFrom (d - 1) (c :: acc) cs
    else if c = '{' then balancedSpanFrom (d + 1) (c :: acc) cs
    else balancedSpanFrom d (c :: acc) cs

/-- Modelled from the claim wording of C2: locate the first balanced
`\x7b...\x7d` span of the text. -/
def firstBalancedSpan : List Char → Option (List Char)
  | [] => none
  | '{' :: cs => balancedSpanFrom 1 ['{'] cs
  | _ :: cs => firstBalancedSpan cs

/-- Modelled from the claim wording of C2: the claimed parse stage —
direct parse, then parse of the fence-stripped text, then parse of the
first balanced brace span. -/
def claimedParseStage (s : String) : Option JVal :=
  match jsonParse s with
  | some v => some v
  | none =>
    match jsonParse (innerClean s) with
    | some v => some v
    | none =>
      match firstBalancedSpan s.toList with
      | some span => jsonParse span.asString
      | none => none

/-- Modelled from the claim wording of C2: the claimed overall fallback
chain — the claimed parse stage feeding the field normalization, with
the stated fallback record when every stage fails. -/
def claimedChainNormalize (s : String) : JVal :=
  match claimedParseStage s with
  | some v => normalizeFields (.str s) v
  | none => fallbackFields s

/-- Modelled from the claim wording of C5: a string-valued `next_steps`
is "split into lines". -/
def claimedLinesOfString (s : String) : JVal :=
  .arr ((jsSplitNl s).map .str)

/-- A non-empty string is truthy. -/
theorem truthy_str_of_ne {s : String} (hs : s ≠ "") :
    truthy (.str s) = true := by
  simp [truthy, bne_iff_ne]
  exact hs

/-- A value one of whose fields is truthy must be an object. -/
theorem objGet_truthy_obj {v : JVal} {k : String}
    (h : truthy (objGet v k) = true) : ∃ gs, v = JVal.obj gs := by
  cases v with
  | obj gs => exact ⟨gs, rfl⟩
  | _ => simp [objGet, truthy] at h

/-- The double-encoded recovery keeps the data an object. -/
theorem adjustData_obj (fs : List (String × JVal)) :
    ∃ gs, adjustData (JVal.obj fs) = JVal.obj gs := by
  unfold adjustData
  dsimp only
  split
  · split
    · split
      · rename_i inner _ htr
        obtain ⟨gs, rfl⟩ := objGet_truthy_obj htr
        exact ⟨gs, rfl⟩
      · exact ⟨fs, rfl⟩
    · exact ⟨fs, rfl⟩
  · exact ⟨fs, rfl⟩

/-- On an object, `normalizeFields` takes the normal (non-degenerate)
path. -/
theorem normalizeFields_obj (raw : JVal) (fs : List (String × JVal)) :
    normalizeFields raw (.obj fs) = buildFields (adjustData (.obj fs)) := by
  unfold normalizeFields
  simp [typeofStr, isArray]

/-- The disclaimer field produced by `buildFields` is never empty. -/
theorem buildFields_disclaimer (data : JVal) :
    ∃ d, objGet (buildFields data) "disclaimer" = JVal.str d ∧ d ≠ "" := by
  refine ⟨_, rfl, ?_⟩
  by_cases h : flattenToString (objGet data "disclaimer") = ""
  · simp [h]
    intro hfalse
    exact absurd hfalse (by decide)
  · simp [h]

/-- For a non-empty string input, `normalizeData` is the single-parse
chain on the cleaned text. -/
theorem normalizeData_str (s : String) (hs : s ≠ "") :
    normalizeData (.str s) =
      (match jsonParse (cleanRaw s) with
       | some parsed =>
         if truthy parsed && typeofStr parsed = "object" && !isArray parsed
         then normalizeFields (.str s) parsed
         else normalizeFields (.str s) (.str s)
       | none => fallbackFields s) := by
  unfold normalizeData
  rw [truthy_str_of_ne hs]
  rfl

/-- C1 (counterexample): the claim "for every string input the
normalizer returns an object whose disclaimer field is a non-empty
string" is false: the input `"5"` (JSON parsing to a number) yields an
empty-string disclaimer, and the empty-string input yields the empty
object, which has no disclaimer field at all. -/
theorem normalizeData_disclaimer_counterexample :
    objGet (normalizeData (.str "5")) "disclaimer" = .str "" ∧
    normalizeData (.str "") = .obj [] ∧
    objGet (.obj []) "disclaimer" = .undefined :=
  ⟨rfl, rfl, rfl⟩

/-- C1 (amended): `normalizeData` never raises (it is a total function)
and always returns an object; for a non-empty string input the
disclaimer of the result is a non-empty string unless the cleaned text
parses as JSON to a non-object value (then the disclaimer is the empty
string); the empty (falsy) string yields the empty object. -/
theorem normalizeData_total_disclaimer (s : String) :
    (s = "" → normalizeData (.str s) = .obj []) ∧
    (s ≠ "" → jsonParse (cleanRaw s) = none →
      objGet (normalizeData (.str s)) "disclaimer" = .str defaultDisclaimer ∧
      defaultDisclaimer ≠ "") ∧
    (s ≠ "" → ∀ fs, jsonParse (cleanRaw s) = some (.obj fs) →
      typeofStr (objGet (normalizeData (.str s)) "disclaimer") = "string" ∧
      objGet (normalizeData (.str s)) "disclaimer" ≠ .str "") ∧
    (s ≠ "" → ∀ v, jsonParse (cleanRaw s) = some v →
      (truthy v && typeofStr v = "object" && !isArray v) = false →
      objGet (normalizeData (.str s)) "disclaimer" = .str "") := by
  refine ⟨?_, ?_, ?_, ?_⟩
  · rintro rfl
    rfl
  · intro hs hp
    rw [normalizeData_str s hs, hp]
    exact ⟨rfl, by decide⟩
  · intro hs fs hp
    rw [normalizeData_str s hs, hp]
    show typeofStr (objGet (normalizeFields (JVal.str s) (JVal.obj fs))
        "disclaimer") = "string" ∧
      objGet (normalizeFields (JVal.str s) (JVal.obj fs)) "disclaimer"
        ≠ JVal.str ""
    have hb : ∃ d, objGet (normalizeFields (JVal.str s) (JVal.obj fs)) "disclaimer"
        = JVal.str d ∧ d ≠ "" := by
      rw [normalizeFields_obj]
      exact buildFields_disclaimer _
    obtain ⟨d, hd, hne⟩ := hb
    rw [hd]
    refine ⟨rfl, ?_⟩
    intro hcontra
    injection hcontra with h2
    exact hne h2
  · intro hs v hp hcond
    rw [normalizeData_str s hs, hp]
    dsimp only
    simp only [hcond, Bool.false_eq_true, if_false]
    rfl

/-- C1 (witness). -/
theorem normalizeData_total_disclaimer_witness :
    typeofStr (objGet (normalizeData (.str "\x7b\"summary\":\"hi\"\x7d"))
        "disclaimer") = "string" ∧
    objGet (normalizeData (.str "\x7b\"summary\":\"hi\"\x7d")) "disclaimer"
      ≠ JVal.str "" :=
  (normalizeData_total_disclaimer "\x7b\"summary\":\"hi\"\x7d").2.2.1
    (by decide) [("summary", .str "hi")] rfl

def c2input : String := "x \x7b\"summary\":\"y\"\x7d z"

/-- C2 (counterexample): the claimed chain has a balanced-brace-span
stage, the code does not.  On `c2input` the claimed chain extracts and
parses the span and yields summary `"y"`, while the code's single parse
attempt fails and it falls back to the raw text as summary. -/
theorem normalizeData_no_balanced_span_stage :
    objGet (claimedChainNormalize c2input) "summary" = .str "y" ∧
    normalizeData (.str c2input) = fallbackFields c2input ∧
    objGet (fallbackFields c2input) "summary" = .str c2input ∧
    c2input ≠ "y" :=
  ⟨rfl, rfl, rfl, by decide⟩

/-- C2 (amended): the parser applies one parse attempt, on the text with
markdown fences stripped and trimmed; if it fails, it falls back to the
record with the raw text as summary, empty relevant_law and your_rights,
empty next_steps and the default disclaimer; if it succeeds with a plain
object, that object is normalized; with any other JSON value the raw
string itself is fed to the field normalization (degenerate record).
There is no separate direct-parse stage and no balanced-brace stage. -/
theorem normalizeData_fallback_chain (s : String) (hs : s ≠ "") :
    (jsonParse (cleanRaw s) = none →
      normalizeData (.str s) = fallbackFields s) ∧
    (∀ fs, jsonParse (cleanRaw s) = some (.obj fs) →
      normalizeData (.str s) = normalizeFields (.str s) (.obj fs)) ∧
    (∀ v, jsonParse (cleanRaw s) = some v →
      (truthy v && typeofStr v = "object" && !isArray v) = false →
      normalizeData (.str s) = normalizeFields (.str s) (.str s)) ∧
    objGet (fallbackFields s) "summary" = .str s ∧
    objGet (fallbackFields s) "relevant_law" = .str "" ∧
    objGet (fallbackFields s) "your_rights" = .str "" ∧
    objGet (fallbackFields s) "next_steps" = .arr [] ∧
    objGet (fallbackFields s) "disclaimer" = .str defaultDisclaimer := by
  refine ⟨?_, ?_, ?_, rfl, rfl, rfl, rfl, rfl⟩
  · intro hp
    rw [normalizeData_str s hs, hp]
  · intro fs hp
    rw [normalizeData_str s hs, hp]
    rfl
  · intro v hp hcond
    rw [normalizeData_str s hs, hp]
    dsimp only
    simp only [hcond, Bool.false_eq_true, if_false]

/-- C2 (witness). -/
theorem normalizeData_fallback_chain_witness :
    normalizeData (.str "not json") = fallbackFields "not json" :=
  (normalizeData_fallback_chain "not json" (by decide)).1 rfl

def c3input : String := "```json\n\x7b\"summary\":\"x\"\x7d\n```"

/-- C3: on the markdown-fenced generation output the normalizer yields
summary `"x"`, empty relevant_law and your_rights, empty next_steps and
the (non-empty) default disclaimer. -/
theorem normalizeData_fenced_example :
    objGet (normalizeData (.str c3input)) "summary" = .str "x" ∧
    objGet (normalizeData (.str c3input)) "relevant_law" = .str "" ∧
    objGet (normalizeData (.str c3input)) "your_rights" = .str "" ∧
    objGet (normalizeData (.str c3input)) "next_steps" = .arr [] ∧
    objGet (normalizeData (.str c3input)) "disclaimer" = .str defaultDisclaimer ∧
    defaultDisclaimer ≠ "" :=
  ⟨rfl, rfl, rfl, rfl, rfl, by decide⟩

def c4fenced : String := "```json\n\x7b\"summary\":\"y\"\x7d\n```"

/-- C4 (counterexample): a double-encoded summary wrapped in markdown
fences is JSON-encoded (after fence stripping it parses to an object
with a `summary` key), yet the normalizer does not adopt the inner
object — its guard requires the trimmed summary to start with an opening
brace — and the fenced text survives verbatim as the summary. -/
theorem normalizeData_double_encoded_counterexample :
    jsonParse (innerClean c4fenced) = some (.obj [("summary", .str "y")]) ∧
    objGet (normalizeData (.obj [("summary", .str c4fenced)])) "summary"
      = .str c4fenced ∧
    c4fenced ≠ "y" :=
  ⟨rfl, rfl, by decide⟩

/-- C4 (amended): the normalizer re-parses a double-encoded summary only
when the summary is a string whose trimmed text starts with an opening
brace (so fenced inner JSON is not recognized) and which contains the
literal text `"summary"`; when moreover the fence-stripped string parses
as JSON and the inner value's own summary field is truthy, the inner
object's fields become the structured result.  It never raises. -/
theorem normalizeData_double_encoded (fs : List (String × JVal)) (s : String)
    (inner : JVal)
    (hsum : objGet (.obj fs) "summary" = .str s)
    (hde : isDoubleEncoded (.str s) = true)
    (hparse : jsonParse (innerClean s) = some inner)
    (htr : truthy (objGet inner "summary") = true) :
    normalizeData (.obj fs) = buildFields inner := by
  have hs : s ≠ "" := by
    rintro rfl
    exact absurd hde (by decide)
  show normalizeFields (JVal.obj fs) (JVal.obj fs) = _
  rw [normalizeFields_obj]
  congr 1
  unfold adjustData
  dsimp only
  rw [hsum]
  have hor : jsOr (JVal.str s) (JVal.str "") = JVal.str s := by
    unfold jsOr
    rw [truthy_str_of_ne hs]
    rfl
  rw [hor]
  have hc : (decide (typeofStr (JVal.str s) = "string")
      && isDoubleEncoded (JVal.str s)) = true := by
    simp [typeofStr, hde]
  rw [hc]
  show (match jsonParse (innerClean s) with
        | some inner => if truthy (objGet inner "summary") then inner
                        else JVal.obj fs
        | none => JVal.obj fs) = inner
  rw [hparse]
  dsimp only
  rw [htr]
  rfl

/-- C4 (witness). -/
theorem normalizeData_double_encoded_witness :
    normalizeData (.obj [("summary",
        .str "\x7b\"summary\":\"y\",\"relevant_law\":\"L\"\x7d")])
      = buildFields (.obj [("summary", .str "y"), ("relevant_law", .str "L")]) :=
  normalizeData_double_encoded
    [("summary", .str "\x7b\"summary\":\"y\",\"relevant_law\":\"L\"\x7d")]
    "\x7b\"summary\":\"y\",\"relevant_law\":\"L\"\x7d"
    (.obj [("summary", .str "y"), ("relevant_law", .str "L")])
    rfl (by decide) rfl rfl

/-- C5 (counterexample): a string-valued `next_steps` is not "split into
lines": whitespace-only lines are removed, so `"a\n\nb"` produces two
steps where the claimed line split produces three. -/
theorem normalizeNextSteps_counterexample :
    objGet (normalizeData (.obj [("next_steps", .str "a\n\nb")])) "next_steps"
      = .arr ((["a", "b"] : List String).map .str) ∧
    claimedLinesOfString "a\n\nb" = .arr ((["a", "", "b"] : List String).map .str) ∧
    (["a", "b"] : List String) ≠ ["a", "", "b"] :=
  ⟨rfl, rfl, by decide⟩

/-- C5 (amended): after any successful or fallback parse the normalizer
coerces field shapes — summary, relevant_law, your_rights and disclaimer
are produced through `flattenToString` (display strings even for arrays
and objects), and next_steps becomes an ordered sequence of strings: an
array is mapped element-wise through `flattenToString`, a string is
split on newlines with whitespace-only lines removed, and any other
shape yields the empty sequence. -/
theorem normalizeData_field_coercion (fs : List (String × JVal)) :
    (∃ gs : List (String × JVal),
      objGet (normalizeData (.obj fs)) "summary"
        = .str (flattenToString (objGet (.obj gs) "summary")) ∧
      objGet (normalizeData (.obj fs)) "relevant_law"
        = .str (flattenToString (objGet (.obj gs) "relevant_law")) ∧
      objGet (normalizeData (.obj fs)) "your_rights"
        = .str (flattenToString (objGet (.obj gs) "your_rights")) ∧
      objGet (normalizeData (.obj fs)) "next_steps"
        = normalizeNextSteps (objGet (.obj gs) "next_steps") ∧
      ∃ d, objGet (normalizeData (.obj fs)) "disclaimer" = .str d) ∧
    (∀ xs, normalizeNextSteps (.arr xs)
        = .arr (xs.map (fun v => .str (flattenToString v)))) ∧
    (∀ s, normalizeNextSteps (.str s)
        = .arr (((jsSplitNl s).filter (fun t => jsTrimS t != "")).map .str)) ∧
    (∀ v, isArray v = false → typeofStr v ≠ "string" →
        normalizeNextSteps v = .arr []) := by
  obtain ⟨gs, hgs⟩ := adjustData_obj fs
  have hnf : normalizeData (.obj fs) = buildFields (.obj gs) := by
    show normalizeFields (JVal.obj fs) (JVal.obj fs) = _
    rw [normalizeFields_obj, hgs]
  refine ⟨⟨gs, ?_, ?_, ?_, ?_, ?_⟩, fun xs => rfl, fun s => rfl, ?_⟩
  · rw [hnf]; rfl
  · rw [hnf]; rfl
  · rw [hnf]; rfl
  · rw [hnf]; rfl
  · exact ⟨_, by rw [hnf]; rfl⟩
  · intro v h1 h2
    cases v
    case arr => simp [isArray] at h1
    case str => simp [typeofStr] at h2
    all_goals rfl

/-- C5 (witness). -/
theorem normalizeData_field_coercion_witness :
    normalizeNextSteps (.num 7) = .arr [] :=
  (normalizeData_field_coercion []).2.2.2 (.num 7) rfl (by decide)

/-- C6 (counterexample): for a non-ok response whose body is not JSON
(so no `detail` field is present in the body), the thrown message is
`"Unknown error"` — from the catch substitute — and not the claimed
`"Server error: <status>"`. -/
theorem askQuestion_counterexample :
    askQuestion ⟨false, 500, none⟩ = .error (.thrown "Unknown error") ∧
    ("Unknown error" : String) ≠ "Server error: " ++ toString 500 :=
  ⟨rfl, by decide⟩

/-- C6 (amended): on a non-ok response `askQuestion` always throws and
never silently swallows the failure: the message is the body's `detail`
field when the body parses as JSON with a truthy detail, the displayable
`"Server error: <status>"` when the body parses as JSON without one, and
`"Unknown error"` when the body is not JSON; an ok response returns the
parsed JSON body (and propagates the JSON rejection when the body does
not parse). -/
theorem askQuestion_errors (r : FetchResponse) :
    (r.ok = false → ∀ j, r.body = some j → truthy (objGet j "detail") = true →
      askQuestion r = .error (.thrown (jsToString (objGet j "detail")))) ∧
    (r.ok = false → ∀ j, r.body = some j → truthy (objGet j "detail") = false →
      askQuestion r = .error (.thrown ("Server error: " ++ toString r.status))) ∧
    (r.ok = false → r.body = none →
      askQuestion r = .error (.thrown "Unknown error")) ∧
    (r.ok = true → ∀ j, r.body = some j → askQuestion r = .ok j) ∧
    (r.ok = true → r.body = none → askQuestion r = .error .bodyNotJson) := by
  obtain ⟨ok, status, body⟩ := r
  refine ⟨?_, ?_, ?_, ?_, ?_⟩
  · rintro rfl j rfl htr
    simp [askQuestion, htr]
  · rintro rfl j rfl htr
    simp [askQuestion, htr]
  · rintro rfl rfl
    rfl
  · rintro rfl j rfl
    rfl
  · rintro rfl rfl
    rfl

/-- C6 (witness). -/
theorem askQuestion_errors_witness :
    askQuestion ⟨false, 404, some (.obj [("detail", .str "Not found")])⟩
      = .error (.thrown "Not found") :=
  (askQuestion_errors ⟨false, 404, some (.obj [("detail", .str "Not found")])⟩).1
    rfl (.obj [("detail", .str "Not found")]) rfl rfl

/-- C7 (counterexample): the keep-alive handler does not answer with the
same payload shape in the reachable and unreachable cases: success is a
200 whose body has keys status/timestamp/backend, failure a 500 whose
body has keys status/timestamp/message. -/
theorem keepAliveHandler_counterexample :
    (keepAliveHandler (.ok (.obj [])) "t").statusCode = 200 ∧
    (keepAliveHandler (.error "fetch failed") "t").statusCode = 500 ∧
    objKeys (keepAliveHandler (.ok (.obj [])) "t").body
      = ["status", "timestamp", "backend"] ∧
    objKeys (keepAliveHandler (.error "fetch failed") "t").body
      = ["status", "timestamp", "message"] ∧
    (["status", "timestamp", "backend"] : List String)
      ≠ ["status", "timestamp", "message"] :=
  ⟨rfl, rfl, rfl, rfl, by decide⟩

/-- C7 (amended): the keep-alive handler responds on every invocation
and never propagates an exception (it is a total function of the backend
fetch outcome), but with two different payload shapes: 200 with
`(status: "ok", timestamp, backend)` when the backend call succeeds, and
500 with `(status: "error", timestamp, message)` when it fails. -/
theorem keepAliveHandler_total (outcome : Except String JVal) (ts : String) :
    (∀ d, outcome = .ok d →
      keepAliveHandler outcome ts =
        ⟨200, .obj [("status", .str "ok"), ("timestamp", .str ts),
                    ("backend", d)]⟩) ∧
    (∀ m, outcome = .error m →
      keepAliveHandler outcome ts =
        ⟨500, .obj [("status", .str "error"), ("timestamp", .str ts),
                    ("message", .str m)]⟩) := by
  refine ⟨?_, ?_⟩
  · rintro d rfl
    rfl
  · rintro m rfl
    rfl

/-- C7 (witness). -/
theorem keepAliveHandler_total_witness :
    keepAliveHandler (.error "backend down") "2026-10-11T00:00:00Z" =
      ⟨500, .obj [("status", .str "error"),
                  ("timestamp", .str "2026-10-11T00:00:00Z"),
                  ("message", .str "backend down")]⟩ :=
  (keepAliveHandler_total (.error "backend down") "2026-10-11T00:00:00Z").2
    "backend down" rfl

/-- C8: `flattenToString` is total (a Lean function), acts as the
identity on strings, sends `null` and `undefined` to the empty string,
and — since every output is a string on which it is the identity — it is
idempotent. -/
theorem flattenToString_identity_idempotent :
    (∀ s, flattenToString (.str s) = s) ∧
    flattenToString .null = "" ∧
    flattenToString .undefined = "" ∧
    (∀ v, flattenToString (.str (flattenToString v)) = flattenToString v) :=
  ⟨fun _ => rfl, rfl, rfl, fun _ => rfl⟩

/-- C9: the chat input submits exactly when the trimmed text is
non-empty and no request is in flight; what is sent is the trimmed text
and the field is cleared; the textarea `maxLength` is 2000; no lower
bound is enforced, so short (1-4 character) trimmed queries are sent. -/
theorem handleSubmit_spec (query : String) (isLoading : Bool) :
    (handleSubmit query isLoading = none ↔
      (jsTrimS query = "" ∨ isLoading = true)) ∧
    (jsTrimS query ≠ "" → isLoading = false →
      handleSubmit query isLoading = some (jsTrimS query, "")) ∧
    chatInputMaxLength = 2000 ∧
    (jsTrimS query ≠ "" → (jsTrimS query).length ≤ 4 → isLoading = false →
      handleSubmit query isLoading = some (jsTrimS query, "")) := by
  refine ⟨?_, ?_, rfl, ?_⟩
  · unfold handleSubmit
    dsimp only
    by_cases hq : jsTrimS query = "" <;> cases isLoading <;> simp [hq]
  · intro hq hl
    subst hl
    unfold handleSubmit
    dsimp only
    simp [hq]
  · intro hq _ hl
    subst hl
    unfold handleSubmit
    dsimp only
    simp [hq]

/-- C9 (witness): the two-character query `"hi"` is submitted. -/
theorem handleSubmit_spec_witness :
    handleSubmit "hi" false = some ("hi", "") :=
  (handleSubmit_spec "hi" false).2.2.2 (by decide) (by decide) rfl

/-- C10: every `handleSend` run — whether `askQuestion` resolved or
rejected — appends exactly one assistant message after the user message
and resets the loading flag; on rejection the assistant data carries the
fixed non-empty default disclaimer. -/
theorem handleSend_appends_and_resets (st : AppState) (language query : String)
    (outcome : Except String JVal) :
    (handleSend st language query outcome).messages =
      st.messages ++ [.user query, .assistant (sentData language outcome)] ∧
    (handleSend st language query outcome).isLoading = false ∧
    (∀ m, outcome = .error m →
      objGet (sentData language outcome) "disclaimer" = .str defaultDisclaimer ∧
      defaultDisclaimer ≠ "") := by
  cases outcome with
  | ok response =>
    refine ⟨?_, rfl, ?_⟩
    · simp [handleSend, sentData]
    · intro m hm
      exact Except.noConfusion hm
  | error msg =>
    refine ⟨?_, rfl, ?_⟩
    · simp [handleSend, sentData]
    · intro m _
      exact ⟨rfl, by decide⟩

/-- C10 (witness). -/
theorem handleSend_appends_and_resets_witness :
    (handleSend ⟨[], false, none⟩ "en" "q" (.error "boom")).messages =
      ([] : List Message) ++
        [.user "q", .assistant (sentData "en" (.error "boom"))] ∧
    (handleSend ⟨[], false, none⟩ "en" "q" (.error "boom")).isLoading = false ∧
    objGet (sentData "en" (.error "boom")) "disclaimer"
      = .str defaultDisclaimer ∧
    defaultDisclaimer ≠ "" := by
  obtain ⟨h1, h2, h3⟩ :=
    handleSend_appends_and_resets ⟨[], false, none⟩ "en" "q" (.error "boom")
  obtain ⟨h4, h5⟩ := h3 "boom" rfl
  exact ⟨h1, h2, h4, h5⟩

end Nyaya
